import Mathlib

/-!
Verification of the provider-fetch orchestration layer of search-engine-go:
the per-provider circuit breaker, the fan-out fetch orchestrator
(`ProviderService.FetchFromAllProviders`), the breaker registry, and the
search coordinator's cached-result pagination and cache-key generation.

Go machine integers only ever hold small non-negative counters and
monotonic-clock durations here, so they are modelled as `Nat`.  Errors are
modelled by their message strings, because the one caller that
discriminates breaker errors does so by comparing `err.Error()` against a
literal string.
-/

namespace SearchEngineGo

/-! ## Circuit breaker (package circuitbreaker)

Shallow embedding of `CircuitBreaker`.  Go's `time.Time` / `time.Duration`
become `Nat` instants/durations on a monotonic clock; `time.Since(t)` at
instant `now` is `now - t` (the Go clock is monotonic, so `now ≥ t` at
every use site; `Nat` truncated subtraction agrees there).  The zero value
of `time.Time` is instant `0`.
-/

/-- Go `CircuitState`: `CircuitStateClosed | CircuitStateOpen |
`CircuitStateHalfOpen` (`open` is a Lean keyword, hence `opened`). -/
inductive CircuitState where
  | closed
  | opened
  | halfOpen
deriving DecidableEq, Repr

/-- Go struct `CircuitBreaker`.  The mutex only serialises access and has no
sequential content. -/
structure CircuitBreaker where
  maxFailures : Nat
  resetTimeout : Nat
  halfOpenTimeout : Nat
  state : CircuitState
  failureCount : Nat
  lastFailureTime : Nat
  successCount : Nat
deriving DecidableEq, Repr

/-- Go `NewCircuitBreaker(maxFailures, resetTimeout)`: zero-valued counters
and timestamps, `halfOpenTimeout = resetTimeout / 2`, state `Closed`. -/
def newCircuitBreaker (maxFailures resetTimeout : Nat) : CircuitBreaker :=
  { maxFailures := maxFailures
    resetTimeout := resetTimeout
    halfOpenTimeout := resetTimeout / 2
    state := .closed
    failureCount := 0
    lastFailureTime := 0
    successCount := 0 }

namespace CircuitBreaker

/-- Go `(*CircuitBreaker).recordFailure`, called at instant `now`
(`time.Now()` inside the Go body). -/
def recordFailure (cb : CircuitBreaker) (now : Nat) : CircuitBreaker :=
  let cb1 := { cb with failureCount := cb.failureCount + 1, lastFailureTime := now }
  if cb1.state = .halfOpen then
    { cb1 with state := .opened, failureCount := 1, successCount := 0 }
  else if cb1.failureCount ≥ cb1.maxFailures then
    { cb1 with state := .opened }
  else
    cb1

/-- Go `(*CircuitBreaker).recordSuccess`. -/
def recordSuccess (cb : CircuitBreaker) : CircuitBreaker :=
  let cb1 := { cb with failureCount := 0 }
  match cb1.state with
  | .halfOpen =>
      let sc := cb1.successCount + 1
      if sc ≥ 2 then { cb1 with state := .closed, successCount := 0 }
      else { cb1 with successCount := sc }
  | .opened => { cb1 with state := .closed }
  | .closed => cb1

/-- Go `(*CircuitBreaker).transitionToHalfOpen`. -/
def transitionToHalfOpen (cb : CircuitBreaker) : CircuitBreaker :=
  match cb.state with
  | .opened => { cb with state := .halfOpen, successCount := 0, failureCount := 0 }
  | _ => cb

/-- Go `(*CircuitBreaker).Reset`. -/
def reset (cb : CircuitBreaker) : CircuitBreaker :=
  { cb with state := .closed, failureCount := 0, successCount := 0 }

/-- Result of one `Execute` call.  `circuitOpen` is the rejection path
(`errors.New("circuit breaker is open")`, wrapped function NOT invoked);
`callError msg` is the wrapped call's own error, passed through;
`ok` is a successful invocation (`nil` error). -/
inductive ExecResult where
  | circuitOpen
  | callError (msg : String)
  | ok
deriving DecidableEq, Repr

/-- Whether the wrapped function was invoked on this path (`err := fn()`
runs in the Go source exactly when the result is not the rejection). -/
def ExecResult.invoked : ExecResult → Bool
  | .circuitOpen => false
  | .callError _ => true
  | .ok => true

/-- The Go error value returned by `Execute`, as its message string
(`none` = `nil` error). -/
def ExecResult.errMsg : ExecResult → Option String
  | .circuitOpen => some "circuit breaker is open"
  | .callError e => some e
  | .ok => none

/-- The tail of Go `Execute` after the state switch: `err := fn()` followed
by `recordFailure` / `recordSuccess`.  The wrapped call `fn` is modelled by
its outcome `callResult` (`some msg` = error with that message, `none` =
success). -/
def executeCall (cb : CircuitBreaker) (now : Nat) (callResult : Option String) :
    CircuitBreaker × ExecResult :=
  match callResult with
  | some e => (cb.recordFailure now, .callError e)
  | none => (cb.recordSuccess, .ok)

/-- Go `(*CircuitBreaker).Execute(ctx, fn)` at instant `now`.  In the
`Open` state, `time.Since(cb.lastFailureTime) ≥ cb.resetTimeout` decides
between transitioning to `HalfOpen` (and invoking the call) and rejecting
without invoking it. -/
def execute (cb : CircuitBreaker) (now : Nat) (callResult : Option String) :
    CircuitBreaker × ExecResult :=
  match cb.state with
  | .opened =>
      if now - cb.lastFailureTime ≥ cb.resetTimeout then
        executeCall (transitionToHalfOpen cb) now callResult
      else
        (cb, .circuitOpen)
  | .halfOpen => executeCall cb now callResult
  | .closed => executeCall cb now callResult

end CircuitBreaker

/-! ## Provider service (internal/service/provider_service.go)

`FetchFromAllProviders` fans one query out to every registered adapter,
each guarded by that provider's circuit breaker, merges the successes and
classifies the aggregate outcome.  Records (`[]*domain.Content`) become
`List α` for a type parameter `α`: none of these functions inspects a
record's fields.  The Go fan-out runs the per-provider tasks concurrently
and appends under a mutex; the embedding linearises the tasks in registry
order, which covers every merge order up to list permutation (the claims
are order-insensitive).
-/

/-- Go `type ContentType string` (domain). -/
abbrev ContentType := String

/-- The `adapter.ProviderAdapter` capability as the orchestrator uses it:
`FetchContent(ctx, query, contentType) ([]*domain.Content, error)`,
with the error as its message string (`none` = `nil`). -/
structure ProviderAdapter (α : Type) where
  fetchContent : String → Option ContentType → List α × Option String

/-- The `circuitBreakers map[string]*circuitbreaker.CircuitBreaker` field
of `ProviderService`, as an association list (later bindings shadow). -/
abbrev BreakerMap := List (String × CircuitBreaker)

/-- Association-list lookup, i.e. the Go map read `s.circuitBreakers[name]`. -/
def lookupBreaker : BreakerMap → String → Option CircuitBreaker
  | [], _ => none
  | (k, cb) :: rest, name => if k = name then some cb else lookupBreaker rest name

/-- Go `(*ProviderService).getCircuitBreaker(providerName)`, sequential
form: return the stored breaker if present, otherwise create
`NewCircuitBreaker(5, 30*time.Second)` (30 s = 30000000000 ns) and store
it.  Returns the breaker together with the updated registry. -/
def getCircuitBreaker (bs : BreakerMap) (name : String) :
    CircuitBreaker × BreakerMap :=
  match lookupBreaker bs name with
  | some cb => (cb, bs)
  | none =>
      let cb := newCircuitBreaker 5 30000000000
      (cb, (name, cb) :: bs)

/-- The string comparison `cbErr.Error() == "circuit breaker is open"` by
which `FetchFromAllProviders` (and hence any caller) classifies an error
from `Execute` as a breaker-open rejection. -/
def isCircuitBreakerOpenError (msg : String) : Bool :=
  msg == "circuit breaker is open"

/-- Go `(*ProviderService).hasNoAdapters`. -/
def hasNoAdapters {α : Type} (adapters : List (String × ProviderAdapter α)) : Bool :=
  adapters.length == 0

/-- Go `(*ProviderService).allProvidersFailed(contents, errors)`:
`len(contents) == 0 && len(errors) > 0`. -/
def allProvidersFailed {α : Type} (contents : List α) (errs : List String) : Bool :=
  (contents.length == 0) && decide (errs.length > 0)

/-- One per-provider task of `FetchFromAllProviders`, acting on the
accumulator `(registry, allContents, errors)`: obtain the provider's
breaker, run the adapter's `FetchContent` under `Execute`, then either
append the fetched records (success) or append a labelled failure
(`"provider NAME: circuit breaker is open"` on rejection, classified by
the string test; `"provider NAME: " ++ msg` otherwise).  On the
rejection path the fetched pair is discarded, matching the never-invoked
wrapped call. -/
def fetchTask {α : Type} (now : Nat) (query : String) (contentType : Option ContentType)
    (st : BreakerMap × List α × List String) (p : String × ProviderAdapter α) :
    BreakerMap × List α × List String :=
  let name := p.1
  let r0 := getCircuitBreaker st.1 name
  let fetched := p.2.fetchContent query contentType
  let r := CircuitBreaker.execute r0.1 now fetched.2
  let bs1 := (name, r.1) :: r0.2
  match r.2.errMsg with
  | some msg =>
      if isCircuitBreakerOpenError msg then
        (bs1, st.2.1, st.2.2 ++ ["provider " ++ name ++ ": circuit breaker is open"])
      else
        (bs1, st.2.1, st.2.2 ++ ["provider " ++ name ++ ": " ++ msg])
  | none => (bs1, st.2.1 ++ fetched.1, st.2.2)

/-- Go `(*ProviderService).FetchFromAllProviders(ctx, query, contentType)`
at instant `now`, over the registered adapters (the `registry.GetAll()`
map as a list of name/adapter pairs) and the service's breaker registry
`bs`.  Returns the updated breaker registry and either the merged records
or the aggregate `"all providers failed"` error carrying the per-provider
causes. -/
def fetchFromAllProviders {α : Type} (bs : BreakerMap) (now : Nat) (query : String)
    (contentType : Option ContentType) (adapters : List (String × ProviderAdapter α)) :
    BreakerMap × Except (List String) (List α) :=
  if hasNoAdapters adapters then (bs, .ok [])
  else
    let res := adapters.foldl (fetchTask now query contentType) (bs, [], [])
    if allProvidersFailed res.2.1 res.2.2 then (res.1, .error res.2.2)
    else (res.1, .ok res.2.1)

/-- Records of the adapters whose `FetchContent` succeeds (`nil` error),
concatenated in registry order: the "union of the successful providers'
record lists" of the spec. -/
def successRecords {α : Type} (query : String) (contentType : Option ContentType) :
    List (String × ProviderAdapter α) → List α
  | [] => []
  | p :: rest =>
      match p.2.fetchContent query contentType with
      | (records, none) => records ++ successRecords query contentType rest
      | (_, some _) => successRecords query contentType rest

/-- The labelled per-provider failure causes, in registry order: the
message `"provider NAME: MSG"` for each adapter whose `FetchContent`
returns an error. -/
def failureMessages {α : Type} (query : String) (contentType : Option ContentType) :
    List (String × ProviderAdapter α) → List String
  | [] => []
  | p :: rest =>
      match (p.2.fetchContent query contentType).2 with
      | some e => ("provider " ++ p.1 ++ ": " ++ e) :: failureMessages query contentType rest
      | none => failureMessages query contentType rest

/-! ## Content service (internal/service/content_service.go)

The two search-coordinator functions the claims touch: in-memory
pagination of a cached result set, and cache-key generation.  `Search`
runs `NormalizePagination` before either is reached, so `Page ≥ 1` and
`1 ≤ PageSize ≤ 100` hold at their call sites; `page` and `pageSize` are
therefore modelled as `Nat`. -/

/-- Go `(*ContentService).isStartBeyondBounds(start, total)`. -/
def isStartBeyondBounds (start total : Nat) : Bool :=
  decide (start > total)

/-- Go `(*ContentService).isEndBeyondBounds(end, total)`. -/
def isEndBeyondBounds (e total : Nat) : Bool :=
  decide (e > total)

/-- Go `(*ContentService).paginateCachedResults(cached, page, pageSize)`:
`start := (page-1)*pageSize`, `end := start+pageSize`; empty page when the
start is beyond bounds, truncated tail `cached[start:]` when only the end
is, else the full slice `cached[start:end]`. -/
def paginateCachedResults {α : Type} (cached : List α) (page pageSize : Nat) : List α :=
  let start := (page - 1) * pageSize
  let e := start + pageSize
  let total := cached.length
  if isStartBeyondBounds start total then []
  else if isEndBeyondBounds e total then cached.drop start
  else (cached.drop start).take pageSize

/-- `domain.SearchRequest` (only the fields `generateCacheKey` reads;
`Page`/`PageSize` are carried along untouched). -/
structure SearchRequest where
  query : String
  contentType : Option ContentType
  page : Nat
  pageSize : Nat
  sortBy : String
  sortOrder : String
deriving DecidableEq, Repr

/-- Go `(*ContentService).generateCacheKey(req)`:
`"search:%s:%s:%s:%s"` over query, the type filter or the sentinel
`"all"`, the sort key, and the sort order defaulted to `"desc"`. -/
def generateCacheKey (req : SearchRequest) : String :=
  let contentType :=
    match req.contentType with
    | some ct => ct
    | none => "all"
  let sortOrder := if req.sortOrder = "" then "desc" else req.sortOrder
  "search:" ++ req.query ++ ":" ++ contentType ++ ":" ++ req.sortBy ++ ":" ++ sortOrder

/-! ## Breaker-registry race (`getCircuitBreaker` under concurrency)

Small-step interleaving model of two goroutines calling
`getCircuitBreaker` for the same provider name.  The Go body has three
shared-state accesses, each atomic under its lock: the `RLock` map read,
the heap allocation by `NewCircuitBreaker` (breaker identity = pointer,
modelled as an id drawn from an allocation counter), and the `Lock` map
store, which writes unconditionally — there is no re-check of the map
under the write lock.  Between the read and the store the other goroutine
may run arbitrarily. -/

/-- Shared state: the `circuitBreakers` map (name to breaker id) and the
allocator (next fresh breaker id, i.e. how many breakers exist). -/
structure RegistryState where
  breakers : List (String × Nat)
  nextId : Nat
deriving DecidableEq, Repr

/-- Map read for the race model. -/
def regLookup : List (String × Nat) → String → Option Nat
  | [], _ => none
  | (k, v) :: rest, name => if k = name then some v else regLookup rest name

/-- One goroutine's position inside `getCircuitBreaker`:
before the `RLock` read; after a miss, holding a freshly allocated breaker
not yet stored; or returned with the breaker it will use. -/
inductive TaskState where
  | notStarted
  | allocated (id : Nat)
  | finished (id : Nat)
deriving DecidableEq, Repr

/-- One atomic step of a goroutine running `getCircuitBreaker(name)`:
the read (returning on a hit, allocating on a miss) or the unconditional
store-then-return.  A finished task does nothing. -/
def registryStep (name : String) (g : RegistryState) :
    TaskState → RegistryState × TaskState
  | .notStarted =>
      match regLookup g.breakers name with
      | some id => (g, .finished id)
      | none => ({ g with nextId := g.nextId + 1 }, .allocated g.nextId)
  | .allocated id =>
      ({ g with breakers := (name, id) :: g.breakers }, .finished id)
  | .finished id => (g, .finished id)

/-- Run two goroutines, both calling `getCircuitBreaker(name)`, under a
schedule (`false` = first goroutine moves, `true` = second). -/
def runRegistry (name : String) (sched : List Bool) :
    RegistryState × TaskState × TaskState :=
  sched.foldl
    (fun st pick =>
      if pick then
        let r := registryStep name st.1 st.2.2
        (r.1, st.2.1, r.2)
      else
        let r := registryStep name st.1 st.2.1
        (r.1, r.2, st.2.2))
    (⟨[], 0⟩, .notStarted, .notStarted)

/-! ## Auxiliary definitions for the statements -/

/-- A sequence of `Execute` calls whose wrapped function fails each time:
call `i` happens at instant `calls[i].1` and fails with message
`calls[i].2`.  Returns the breaker after the run. -/
def failRun (cb : CircuitBreaker) (calls : List (Nat × String)) : CircuitBreaker :=
  calls.foldl (fun cb c => (CircuitBreaker.execute cb c.1 (some c.2)).1) cb

/-- The success-counter invariant: `successCount` is `0` outside
`HalfOpen` and never exceeds `1` in any state. -/
def cbCounterInvariant (cb : CircuitBreaker) : Prop :=
  (cb.state ≠ .halfOpen → cb.successCount = 0) ∧ cb.successCount ≤ 1

instance (cb : CircuitBreaker) : Decidable (cbCounterInvariant cb) := by
  unfold cbCounterInvariant
  infer_instance

/-- A mock adapter that succeeds with a fixed record list (the
`MockAdapter` of the service tests with `err = nil`). -/
def adapterOk (records : List Nat) : ProviderAdapter Nat :=
  ⟨fun _ _ => (records, none)⟩

/-- A mock adapter that always fails with the given message
(the `MockAdapter` of the service tests with a non-nil `err`). -/
def adapterErr (msg : String) : ProviderAdapter Nat :=
  ⟨fun _ _ => ([], some msg)⟩

-- Sanity checks of the embedding on concrete runs.
example :
    (CircuitBreaker.execute (newCircuitBreaker 2 10) 3 (some "boom")).1.failureCount = 1 := by
  decide

example :
    (CircuitBreaker.execute (newCircuitBreaker 1 10) 3 (some "boom")).1.state = .opened := by
  decide

example :
    CircuitBreaker.execute
      ((CircuitBreaker.execute (newCircuitBreaker 1 10) 3 (some "boom")).1) 5 none
      = ((CircuitBreaker.execute (newCircuitBreaker 1 10) 3 (some "boom")).1,
          .circuitOpen) := by
  decide

example :
    (fetchFromAllProviders [] 0 "q" none
        [("a", adapterErr "boom"), ("b", adapterOk [7, 8])]).2 = .ok [7, 8] :=
  rfl

example :
    (fetchFromAllProviders [] 0 "q" none [("a", adapterErr "boom")]).2
      = .error ["provider a: boom"] :=
  rfl

example : paginateCachedResults [10, 20, 30] 2 2 = [30] := by decide

/-! ## Orchestrator classification lemmas -/

theorem lookupBreaker_cons_of_ne (bs : BreakerMap) (k name : String)
    (cb : CircuitBreaker) (h : k ≠ name) :
    lookupBreaker ((k, cb) :: bs) name = lookupBreaker bs name := by
  simp [lookupBreaker, h]

/-- Linearised fan-out: folding the per-provider tasks over adapters whose
names are pairwise distinct and fresh to the breaker registry accumulates
exactly the successful records and the labelled failure causes, in
registry order. -/
theorem fetchTask_foldl_spec {α : Type} (q : String) (ct : Option ContentType) (now : Nat) :
    ∀ (adapters : List (String × ProviderAdapter α)) (bs : BreakerMap)
      (acc : List α) (errs : List String),
      (∀ p ∈ adapters, lookupBreaker bs p.1 = none) →
      (adapters.map Prod.fst).Nodup →
      ∃ bs2, adapters.foldl (fetchTask now q ct) (bs, acc, errs)
        = (bs2, acc ++ successRecords q ct adapters,
            errs ++ failureMessages q ct adapters) := by
  intro adapters
  induction adapters with
  | nil =>
      intro bs acc errs _ _
      exact ⟨bs, by simp [successRecords, failureMessages]⟩
  | cons p rest ih =>
      intro bs acc errs hfresh hnodup
      have hp : lookupBreaker bs p.1 = none := hfresh p (List.mem_cons_self p rest)
      rw [List.map_cons] at hnodup
      have hnd := List.nodup_cons.mp hnodup
      rcases hfe : p.2.fetchContent q ct with ⟨recs, ferr⟩
      have hrest_fresh : ∀ p2 ∈ rest,
          lookupBreaker
            ((p.1, (CircuitBreaker.execute (newCircuitBreaker 5 30000000000) now ferr).1) ::
              (p.1, newCircuitBreaker 5 30000000000) :: bs) p2.1 = none := by
        intro p2 hp2
        have hne : p.1 ≠ p2.1 := by
          intro hcontra
          exact hnd.1 (hcontra ▸ List.mem_map_of_mem Prod.fst hp2)
        rw [lookupBreaker_cons_of_ne _ _ _ _ hne, lookupBreaker_cons_of_ne _ _ _ _ hne]
        exact hfresh p2 (List.mem_cons_of_mem p hp2)
      cases ferr with
      | none =>
          have hstep : fetchTask now q ct (bs, acc, errs) p
              = ((p.1, (CircuitBreaker.execute (newCircuitBreaker 5 30000000000) now none).1) ::
                  (p.1, newCircuitBreaker 5 30000000000) :: bs,
                  acc ++ recs, errs) := by
            simp [fetchTask, getCircuitBreaker, hp, hfe, newCircuitBreaker,
              CircuitBreaker.execute, CircuitBreaker.executeCall,
              CircuitBreaker.ExecResult.errMsg]
          obtain ⟨bs2, hrec⟩ := ih _ (acc ++ recs) errs hrest_fresh hnd.2
          refine ⟨bs2, ?_⟩
          rw [List.foldl_cons, hstep, hrec]
          simp [successRecords, failureMessages, hfe]
      | some e =>
          have hstep : fetchTask now q ct (bs, acc, errs) p
              = ((p.1, (CircuitBreaker.execute (newCircuitBreaker 5 30000000000) now
                    (some e)).1) ::
                  (p.1, newCircuitBreaker 5 30000000000) :: bs,
                  acc, errs ++ ["provider " ++ p.1 ++ ": " ++ e]) := by
            by_cases hco : isCircuitBreakerOpenError e = true
            · have he : e = "circuit breaker is open" := by
                unfold isCircuitBreakerOpenError at hco
                exact eq_of_beq hco
              subst he
              simp [fetchTask, getCircuitBreaker, hp, hfe, newCircuitBreaker,
                CircuitBreaker.execute, CircuitBreaker.executeCall,
                CircuitBreaker.ExecResult.errMsg, isCircuitBreakerOpenError,
                String.append_assoc]
            · simp [fetchTask, getCircuitBreaker, hp, hfe, newCircuitBreaker,
                CircuitBreaker.execute, CircuitBreaker.executeCall,
                CircuitBreaker.ExecResult.errMsg, hco]
          obtain ⟨bs2, hrec⟩ := ih _ acc (errs ++ ["provider " ++ p.1 ++ ": " ++ e])
            hrest_fresh hnd.2
          refine ⟨bs2, ?_⟩
          rw [List.foldl_cons, hstep, hrec]
          simp [successRecords, failureMessages, hfe]

/-- Classification of the aggregate outcome on a fresh service (empty
breaker registry, as after `NewProviderService`): the result is the
`allProvidersFailed` test applied to the successful records and the
failure causes. -/
theorem fetchFromAllProviders_classification {α : Type} (q : String)
    (ct : Option ContentType) (now : Nat)
    (adapters : List (String × ProviderAdapter α))
    (hnodup : (adapters.map Prod.fst).Nodup) :
    (fetchFromAllProviders ([] : BreakerMap) now q ct adapters).2
      = if allProvidersFailed (successRecords q ct adapters)
            (failureMessages q ct adapters)
        then .error (failureMessages q ct adapters)
        else .ok (successRecords q ct adapters) := by
  cases adapters with
  | nil =>
      simp [fetchFromAllProviders, hasNoAdapters, successRecords, failureMessages,
        allProvidersFailed]
  | cons p rest =>
      obtain ⟨bs2, hrec⟩ := fetchTask_foldl_spec q ct now (p :: rest) [] [] []
        (by intro p2 _; simp [lookupBreaker]) hnodup
      have hne : hasNoAdapters (α := α) (p :: rest) = false := by
        simp [hasNoAdapters]
      unfold fetchFromAllProviders
      rw [hne]
      simp only [Bool.false_eq_true, if_false, hrec, List.nil_append]
      by_cases hfail : allProvidersFailed (successRecords q ct (p :: rest))
          (failureMessages q ct (p :: rest)) = true <;> simp [hfail]

/-- claim C2: on a fresh service, `FetchFromAllProviders` returns a
non-nil aggregate error exactly when the merged record set is empty and at
least one per-provider failure was recorded; in that case the record set
is nil (the error branch carries no records) and the error carries every
per-provider cause. -/
theorem fetchFromAllProviders_aggregate_error_iff {α : Type} (q : String)
    (ct : Option ContentType) (now : Nat)
    (adapters : List (String × ProviderAdapter α))
    (hnodup : (adapters.map Prod.fst).Nodup) :
    ((∃ causes, (fetchFromAllProviders ([] : BreakerMap) now q ct adapters).2
        = .error causes)
      ↔ successRecords q ct adapters = [] ∧ failureMessages q ct adapters ≠ []) ∧
    (∀ causes, (fetchFromAllProviders ([] : BreakerMap) now q ct adapters).2
        = .error causes → causes = failureMessages q ct adapters) := by
  have h := fetchFromAllProviders_classification q ct now adapters hnodup
  rw [h]
  by_cases hb : allProvidersFailed (successRecords q ct adapters)
      (failureMessages q ct adapters) = true
  · rw [if_pos hb]
    unfold allProvidersFailed at hb
    simp only [Bool.and_eq_true, beq_iff_eq, decide_eq_true_eq] at hb
    refine ⟨⟨fun _ => ⟨List.length_eq_zero.mp hb.1, ?_⟩, fun _ => ⟨_, rfl⟩⟩, ?_⟩
    · intro hfm
      rw [hfm] at hb
      simp at hb
    · intro causes hc
      exact (Except.error.inj hc).symm
  · rw [if_neg hb]
    unfold allProvidersFailed at hb
    simp only [Bool.and_eq_true, beq_iff_eq, decide_eq_true_eq, not_and] at hb
    refine ⟨⟨?_, ?_⟩, ?_⟩
    · rintro ⟨causes, hc⟩
      simp at hc
    · rintro ⟨hsr, hfm⟩
      exact absurd (List.length_eq_zero.mp
        (Nat.eq_zero_of_not_pos (hb (by rw [hsr]; rfl)))) hfm
    · intro causes hc
      simp at hc

/-- claim C1 (amended): on a fresh service with providers of which some
may fail, `FetchFromAllProviders` returns the union of the successful
providers' records together with a nil error whenever no provider failed
or that union is non-empty (the original claim also promised this when
every successful provider returned zero records and a failure occurred,
where the code instead reports the aggregate error). -/
theorem fetchFromAllProviders_degraded_success {α : Type} (q : String)
    (ct : Option ContentType) (now : Nat)
    (adapters : List (String × ProviderAdapter α))
    (hnodup : (adapters.map Prod.fst).Nodup)
    (hok : failureMessages q ct adapters = [] ∨ successRecords q ct adapters ≠ []) :
    (fetchFromAllProviders ([] : BreakerMap) now q ct adapters).2
      = .ok (successRecords q ct adapters) := by
  rw [fetchFromAllProviders_classification q ct now adapters hnodup]
  have hb : allProvidersFailed (successRecords q ct adapters)
      (failureMessages q ct adapters) = false := by
    unfold allProvidersFailed
    rcases hok with hfm | hsr
    · simp [hfm]
    · cases hsuc : successRecords q ct adapters with
      | nil => exact absurd hsuc hsr
      | cons a l => simp
  rw [hb]
  simp

/-- Witness for C1 (amended): one failing provider plus one provider
succeeding with records yields exactly those records and a nil error. -/
theorem fetchFromAllProviders_degraded_success_witness :
    (([("a", adapterErr "boom"), ("b", adapterOk [5])].map Prod.fst).Nodup) ∧
    successRecords "q" none [("a", adapterErr "boom"), ("b", adapterOk [5])] ≠ [] ∧
    (fetchFromAllProviders ([] : BreakerMap) 0 "q" none
        [("a", adapterErr "boom"), ("b", adapterOk [5])]).2
      = .ok (successRecords "q" none [("a", adapterErr "boom"), ("b", adapterOk [5])]) := by
  refine ⟨by decide, by decide, ?_⟩
  exact fetchFromAllProviders_degraded_success "q" none 0
    [("a", adapterErr "boom"), ("b", adapterOk [5])] (by decide) (Or.inr (by decide))

/-- Witness for C2: a single failing provider produces the aggregate
error, whose cause list is exactly the labelled provider failure. -/
theorem fetchFromAllProviders_aggregate_error_iff_witness :
    (([("a", adapterErr "boom")].map Prod.fst).Nodup) ∧
    ((∃ causes, (fetchFromAllProviders ([] : BreakerMap) 0 "q" none
          [("a", adapterErr "boom")]).2 = .error causes)
        ↔ successRecords "q" none [("a", adapterErr "boom")] = [] ∧
          failureMessages "q" none [("a", adapterErr "boom")] ≠ []) ∧
    (∀ causes, (fetchFromAllProviders ([] : BreakerMap) 0 "q" none
          [("a", adapterErr "boom")]).2 = .error causes
        → causes = failureMessages "q" none [("a", adapterErr "boom")]) := by
  refine ⟨by decide, ?_, ?_⟩
  · exact (fetchFromAllProviders_aggregate_error_iff "q" none 0
      [("a", adapterErr "boom")] (by decide)).1
  · exact (fetchFromAllProviders_aggregate_error_iff "q" none 0
      [("a", adapterErr "boom")] (by decide)).2

/-- claim C8: the cache key is deterministic in the filter: a request with
an explicit content-type filter `"all"` and an otherwise identical request
with no content-type filter produce the same cache key. -/
theorem generateCacheKey_all_filter_eq_absent
    (q : String) (p ps : Nat) (sb so : String) :
    generateCacheKey ⟨q, some "all", p, ps, sb, so⟩
      = generateCacheKey ⟨q, none, p, ps, sb, so⟩ :=
  rfl

/-- claim C9: with zero registered providers, `FetchFromAllProviders`
returns the empty record set and a nil error, for every query, type
filter, instant and pre-existing breaker registry. -/
theorem fetchFromAllProviders_no_adapters {α : Type} (bs : BreakerMap) (now : Nat)
    (q : String) (ct : Option ContentType) :
    fetchFromAllProviders (α := α) bs now q ct [] = (bs, .ok []) := by
  simp [fetchFromAllProviders, hasNoAdapters]

/-- claim C6 (code bug exhibit): two goroutines call
`getCircuitBreaker "p"` on a fresh registry; under the schedule in which
both execute the `RLock` map read before either acquires the write lock,
two distinct breakers are allocated (`nextId = 2`), the second store
shadows the first, and the callers return the two distinct instances
(`finished 0` vs `finished 1`). -/
theorem getCircuitBreaker_race_duplicate_breakers :
    runRegistry "p" [false, true, false, true]
      = (⟨[("p", 1), ("p", 0)], 2⟩, .finished 0, .finished 1) := by
  decide

/-- claim C5 (counterexample): a wrapped call that fails with the message
`"circuit breaker is open"` while the breaker is closed is a genuine call
failure (the function is invoked and a failure is recorded), yet its
returned error is indistinguishable from the breaker-open rejection: the
caller's string test classifies it as a rejection. -/
theorem execute_sentinel_collision :
    ((CircuitBreaker.execute (newCircuitBreaker 5 30000000000) 0
        (some "circuit breaker is open")).2).invoked = true ∧
    ((CircuitBreaker.execute (newCircuitBreaker 5 30000000000) 0
        (some "circuit breaker is open")).1).failureCount = 1 ∧
    ((CircuitBreaker.execute (newCircuitBreaker 5 30000000000) 0
        (some "circuit breaker is open")).2).errMsg
      = some "circuit breaker is open" ∧
    isCircuitBreakerOpenError "circuit breaker is open" = true := by
  decide

/-- claim C1 (counterexample): with two providers of which one fails and
one succeeds with zero records, `FetchFromAllProviders` returns a non-nil
aggregate error instead of the empty union with a nil error. -/
theorem fetchFromAllProviders_zero_record_counterexample :
    (fetchFromAllProviders ([] : BreakerMap) 0 "q" none
        [("a", adapterErr "boom"), ("b", adapterOk [])]).2
      = .error ["provider a: boom"] ∧
    (adapterOk []).fetchContent "q" none = ([], none) :=
  ⟨rfl, rfl⟩

/-! ## Circuit breaker lemmas -/

theorem execute_of_closed (cb : CircuitBreaker) (now : Nat) (res : Option String)
    (h : cb.state = .closed) :
    CircuitBreaker.execute cb now res = CircuitBreaker.executeCall cb now res := by
  unfold CircuitBreaker.execute
  rw [h]

theorem execute_of_halfOpen (cb : CircuitBreaker) (now : Nat) (res : Option String)
    (h : cb.state = .halfOpen) :
    CircuitBreaker.execute cb now res = CircuitBreaker.executeCall cb now res := by
  unfold CircuitBreaker.execute
  rw [h]

theorem recordFailure_of_closed (cb : CircuitBreaker) (now : Nat)
    (h : cb.state = .closed) :
    cb.recordFailure now =
      if cb.failureCount + 1 ≥ cb.maxFailures then
        { cb with
            state := .opened
            failureCount := cb.failureCount + 1
            lastFailureTime := now }
      else
        { cb with failureCount := cb.failureCount + 1, lastFailureTime := now } := by
  unfold CircuitBreaker.recordFailure
  rw [if_neg (by show ¬(cb.state = CircuitState.halfOpen); rw [h]; decide)]

theorem failRun_closed_opens :
    ∀ (calls : List (Nat × String)) (cb : CircuitBreaker),
      cb.state = .closed → calls ≠ [] →
      cb.failureCount + calls.length = cb.maxFailures →
      (failRun cb calls).state = .opened := by
  intro calls
  induction calls with
  | nil => intro cb _ hne _; exact absurd rfl hne
  | cons c rest ih =>
      intro cb hclosed _ hcount
      have hexec : CircuitBreaker.execute cb c.1 (some c.2)
          = (cb.recordFailure c.1, .callError c.2) := by
        rw [execute_of_closed cb c.1 (some c.2) hclosed]
        rfl
      unfold failRun
      rw [List.foldl_cons, hexec]
      cases rest with
      | nil =>
          have hge : cb.failureCount + 1 ≥ cb.maxFailures := by
            simp at hcount
            omega
          rw [List.foldl_nil, recordFailure_of_closed cb c.1 hclosed, if_pos hge]
      | cons c2 rest2 =>
          have hlt : ¬(cb.failureCount + 1 ≥ cb.maxFailures) := by
            simp at hcount
            omega
          rw [recordFailure_of_closed cb c.1 hclosed, if_neg hlt]
          have := ih
            { cb with
                failureCount := cb.failureCount + 1
                lastFailureTime := c.1 }
            hclosed (by simp) (by simp at hcount ⊢; omega)
          unfold failRun at this
          exact this

/-- claim C3: from `Closed`, `maxFailures ≥ 1` consecutive failing
`Execute` calls leave the breaker `Open`; and while `Open`, any `Execute`
call made before `resetTimeout` has elapsed since the last failure leaves
the breaker unchanged and returns the breaker-open rejection without
invoking the wrapped function. -/
theorem circuitBreaker_opens_after_max_failures_and_rejects :
    (∀ (m r : Nat) (calls : List (Nat × String)), 1 ≤ m → calls.length = m →
        (failRun (newCircuitBreaker m r) calls).state = .opened) ∧
    (∀ (cb : CircuitBreaker) (now : Nat) (res : Option String),
        cb.state = .opened → now - cb.lastFailureTime < cb.resetTimeout →
        CircuitBreaker.execute cb now res = (cb, .circuitOpen) ∧
        ((CircuitBreaker.execute cb now res).2).invoked = false) := by
  constructor
  · intro m r calls hm hlen
    apply failRun_closed_opens calls (newCircuitBreaker m r) rfl
    · intro hcontra
      rw [hcontra] at hlen
      simp at hlen
      omega
    · simpa [newCircuitBreaker] using hlen
  · intro cb now res hopen hlt
    have hexec : CircuitBreaker.execute cb now res = (cb, .circuitOpen) := by
      unfold CircuitBreaker.execute
      rw [hopen, if_neg (Nat.not_le.mpr hlt)]
    exact ⟨hexec, by rw [hexec]; rfl⟩

/-- Witness for C3: `maxFailures = 2`, two failing calls open the breaker;
a third call at instant `3` (elapsed `3 - 1 = 2 < 10 = resetTimeout`) is
rejected with the breaker unchanged. -/
theorem circuitBreaker_opens_after_max_failures_and_rejects_witness :
    (failRun (newCircuitBreaker 2 10) [(0, "e1"), (1, "e2")]).state = .opened ∧
    CircuitBreaker.execute (failRun (newCircuitBreaker 2 10) [(0, "e1"), (1, "e2")]) 3
        (some "e3")
      = (failRun (newCircuitBreaker 2 10) [(0, "e1"), (1, "e2")], .circuitOpen) := by
  refine ⟨?_, ?_⟩
  · exact circuitBreaker_opens_after_max_failures_and_rejects.1 2 10
      [(0, "e1"), (1, "e2")] (by decide) (by decide)
  · exact (circuitBreaker_opens_after_max_failures_and_rejects.2
      (failRun (newCircuitBreaker 2 10) [(0, "e1"), (1, "e2")]) 3 (some "e3")
      (by decide) (by decide)).1

theorem transitionToHalfOpen_of_opened (cb : CircuitBreaker) (h : cb.state = .opened) :
    cb.transitionToHalfOpen
      = { cb with state := .halfOpen, successCount := 0, failureCount := 0 } := by
  unfold CircuitBreaker.transitionToHalfOpen
  rw [h]

/-- claim C4: from `Open` with `resetTimeout` elapsed since the last
failure, the next `Execute` transitions to `HalfOpen` and invokes the
wrapped function; from `HalfOpen`, two consecutive successful `Execute`
calls reach `Closed`, while a single failing `Execute` returns to `Open`
with failure count `1` and success count `0`. -/
theorem circuitBreaker_halfOpen_probe_behavior :
    (∀ (cb : CircuitBreaker) (now : Nat) (res : Option String),
        cb.state = .opened → cb.resetTimeout ≤ now - cb.lastFailureTime →
        CircuitBreaker.execute cb now res
            = CircuitBreaker.executeCall cb.transitionToHalfOpen now res ∧
          cb.transitionToHalfOpen.state = .halfOpen ∧
          ((CircuitBreaker.execute cb now res).2).invoked = true) ∧
    (∀ (cb : CircuitBreaker) (t1 t2 : Nat), cb.state = .halfOpen →
        ((CircuitBreaker.execute ((CircuitBreaker.execute cb t1 none).1) t2 none).1).state
          = .closed) ∧
    (∀ (cb : CircuitBreaker) (t : Nat) (e : String), cb.state = .halfOpen →
        ((CircuitBreaker.execute cb t (some e)).1).state = .opened ∧
        ((CircuitBreaker.execute cb t (some e)).1).failureCount = 1 ∧
        ((CircuitBreaker.execute cb t (some e)).1).successCount = 0) := by
  refine ⟨?_, ?_, ?_⟩
  · intro cb now res hopen hle
    have hexec : CircuitBreaker.execute cb now res
        = CircuitBreaker.executeCall cb.transitionToHalfOpen now res := by
      unfold CircuitBreaker.execute
      rw [hopen, if_pos hle]
    refine ⟨hexec, ?_, ?_⟩
    · rw [transitionToHalfOpen_of_opened cb hopen]
    · rw [hexec]
      cases res <;> rfl
  · intro cb t1 t2 hhalf
    obtain ⟨mf, rt, hot, st, fc, lft, sc⟩ := cb
    simp only [] at hhalf
    subst hhalf
    by_cases hsc : sc + 1 ≥ 2 <;>
      simp [CircuitBreaker.execute, CircuitBreaker.executeCall,
        CircuitBreaker.recordSuccess, hsc]
  · intro cb t e hhalf
    obtain ⟨mf, rt, hot, st, fc, lft, sc⟩ := cb
    simp only [] at hhalf
    subst hhalf
    simp [CircuitBreaker.execute, CircuitBreaker.executeCall,
      CircuitBreaker.recordFailure]

/-- Witness for C4: a breaker opened by one failure (maxFailures 1) probes
at instant `15 ≥ 10`, a half-open breaker closes after two successes and
reopens with counters `(1, 0)` after one failure. -/
theorem circuitBreaker_halfOpen_probe_behavior_witness :
    (CircuitBreaker.execute (failRun (newCircuitBreaker 1 10) [(0, "x")]) 15 none
        = CircuitBreaker.executeCall
            (failRun (newCircuitBreaker 1 10) [(0, "x")]).transitionToHalfOpen 15 none) ∧
    ((CircuitBreaker.execute
        ((CircuitBreaker.execute
            ((failRun (newCircuitBreaker 1 10) [(0, "x")]).transitionToHalfOpen)
            15 none).1) 16 none).1).state = .closed ∧
    ((CircuitBreaker.execute
        ((failRun (newCircuitBreaker 1 10) [(0, "x")]).transitionToHalfOpen)
        15 (some "y")).1).state = .opened := by
  refine ⟨?_, ?_, ?_⟩
  · exact (circuitBreaker_halfOpen_probe_behavior.1
      (failRun (newCircuitBreaker 1 10) [(0, "x")]) 15 none (by decide) (by decide)).1
  · exact circuitBreaker_halfOpen_probe_behavior.2.1
      ((failRun (newCircuitBreaker 1 10) [(0, "x")]).transitionToHalfOpen) 15 16 (by decide)
  · exact (circuitBreaker_halfOpen_probe_behavior.2.2
      ((failRun (newCircuitBreaker 1 10) [(0, "x")]).transitionToHalfOpen) 15 "y"
      (by decide)).1

/-- claim C5 (amended): `Execute` returns either the wrapped call's own
error unchanged or the distinguished breaker-open rejection, and the
message test `err.Error() == "circuit breaker is open"` used by the
caller tells the two apart for every call error whose message is not
itself the literal `"circuit breaker is open"` (for a call error with
exactly that message the test misclassifies, see the counterexample). -/
theorem execute_error_discrimination (cb : CircuitBreaker) (now : Nat) (e : String)
    (h : isCircuitBreakerOpenError e = false) :
    ((CircuitBreaker.execute cb now (some e)).2 = .circuitOpen ∨
      (CircuitBreaker.execute cb now (some e)).2 = .callError e) ∧
    (((CircuitBreaker.execute cb now (some e)).2).errMsg
        = some "circuit breaker is open"
      ↔ (CircuitBreaker.execute cb now (some e)).2 = .circuitOpen) := by
  have hne : e ≠ "circuit breaker is open" := by
    intro hcontra
    rw [hcontra] at h
    simp [isCircuitBreakerOpenError] at h
  cases hst : cb.state with
  | closed =>
      rw [execute_of_closed cb now (some e) hst]
      simp [CircuitBreaker.executeCall, CircuitBreaker.ExecResult.errMsg, hne]
  | halfOpen =>
      rw [execute_of_halfOpen cb now (some e) hst]
      simp [CircuitBreaker.executeCall, CircuitBreaker.ExecResult.errMsg, hne]
  | opened =>
      unfold CircuitBreaker.execute
      rw [hst]
      by_cases hto : now - cb.lastFailureTime ≥ cb.resetTimeout
      · rw [if_pos hto]
        simp [CircuitBreaker.executeCall, CircuitBreaker.ExecResult.errMsg, hne]
      · rw [if_neg hto]
        simp [CircuitBreaker.ExecResult.errMsg]

/-- Witness for C5 (amended): a closed breaker passes the call error
`"boom"` through unchanged, and the message test classifies it as a call
failure. -/
theorem execute_error_discrimination_witness :
    isCircuitBreakerOpenError "boom" = false ∧
    (((CircuitBreaker.execute (newCircuitBreaker 5 30000000000) 0 (some "boom")).2
          = .circuitOpen ∨
        (CircuitBreaker.execute (newCircuitBreaker 5 30000000000) 0 (some "boom")).2
          = .callError "boom") ∧
      (((CircuitBreaker.execute (newCircuitBreaker 5 30000000000) 0 (some "boom")).2).errMsg
          = some "circuit breaker is open"
        ↔ (CircuitBreaker.execute (newCircuitBreaker 5 30000000000) 0 (some "boom")).2
          = .circuitOpen)) :=
  ⟨by decide,
    execute_error_discrimination (newCircuitBreaker 5 30000000000) 0 "boom" (by decide)⟩

/-- claim C10: after construction, `Reset`, or any completed `Execute`,
the success counter is `0` whenever the state is not `HalfOpen` and never
exceeds `1`; consequently a positive success counter implies `HalfOpen`. -/
theorem circuitBreaker_successCount_invariant :
    (∀ (m r : Nat), cbCounterInvariant (newCircuitBreaker m r)) ∧
    (∀ cb : CircuitBreaker, cbCounterInvariant cb → cbCounterInvariant cb.reset) ∧
    (∀ (cb : CircuitBreaker) (now : Nat) (res : Option String),
        cbCounterInvariant cb →
        cbCounterInvariant (CircuitBreaker.execute cb now res).1) ∧
    (∀ cb : CircuitBreaker, cbCounterInvariant cb → 0 < cb.successCount →
        cb.state = .halfOpen) := by
  refine ⟨?_, ?_, ?_, ?_⟩
  · intro m r
    exact ⟨fun _ => rfl, by show (0 : Nat) ≤ 1; omega⟩
  · intro cb _
    exact ⟨fun _ => rfl, by simp [CircuitBreaker.reset]⟩
  · intro cb now res hinv
    obtain ⟨mf, rt, hot, st, fc, lft, sc⟩ := cb
    obtain ⟨h1, h2⟩ := hinv
    cases st with
    | closed =>
        have hsc : sc = 0 := h1 (by simp)
        subst hsc
        cases res with
        | some e =>
            by_cases hm : fc + 1 ≥ mf <;>
              simp [CircuitBreaker.execute, CircuitBreaker.executeCall,
                CircuitBreaker.recordFailure, cbCounterInvariant, hm]
        | none =>
            simp [CircuitBreaker.execute, CircuitBreaker.executeCall,
              CircuitBreaker.recordSuccess, cbCounterInvariant]
    | halfOpen =>
        cases res with
        | some e =>
            simp [CircuitBreaker.execute, CircuitBreaker.executeCall,
              CircuitBreaker.recordFailure, cbCounterInvariant]
        | none =>
            by_cases hsc : sc + 1 ≥ 2
            · simp [CircuitBreaker.execute, CircuitBreaker.executeCall,
                CircuitBreaker.recordSuccess, cbCounterInvariant, hsc]
            · simp [CircuitBreaker.execute, CircuitBreaker.executeCall,
                CircuitBreaker.recordSuccess, cbCounterInvariant, hsc]
              omega
    | opened =>
        have hsc : sc = 0 := h1 (by simp)
        subst hsc
        by_cases hto : now - lft ≥ rt
        · cases res with
          | some e =>
              simp [CircuitBreaker.execute, CircuitBreaker.executeCall,
                CircuitBreaker.recordFailure, CircuitBreaker.transitionToHalfOpen,
                cbCounterInvariant, hto]
          | none =>
              simp [CircuitBreaker.execute, CircuitBreaker.executeCall,
                CircuitBreaker.recordSuccess, CircuitBreaker.transitionToHalfOpen,
                cbCounterInvariant, hto]
        · simp [CircuitBreaker.execute, cbCounterInvariant, hto]
  · intro cb hinv hpos
    by_contra hne
    have := hinv.1 hne
    omega

/-- Witness for C10: the invariant holds after a failing call on a fresh
breaker and after a `Reset`. -/
theorem circuitBreaker_successCount_invariant_witness :
    cbCounterInvariant ((CircuitBreaker.execute (newCircuitBreaker 2 10) 0 (some "x")).1) ∧
    cbCounterInvariant (newCircuitBreaker 2 10).reset :=
  ⟨circuitBreaker_successCount_invariant.2.2.1 (newCircuitBreaker 2 10) 0 (some "x")
      (by decide),
    circuitBreaker_successCount_invariant.2.1 (newCircuitBreaker 2 10) (by decide)⟩

/-- claim C7: on a cache hit the in-memory pagination obeys slice
semantics for every `page ≥ 1` and `pageSize ≥ 1`: a start index beyond
the set size yields the empty page, a start in range whose end index is
beyond the set size yields the truncated tail; for a cached set of 3
records with page size 2, pages 1, 2, 3 hold 2, 1, 0 records. -/
theorem paginateCachedResults_slice_semantics {α : Type} :
    (∀ (cached : List α) (page pageSize : Nat), 1 ≤ page → 1 ≤ pageSize →
        (cached.length < (page - 1) * pageSize →
          paginateCachedResults cached page pageSize = []) ∧
        ((page - 1) * pageSize ≤ cached.length →
          cached.length < (page - 1) * pageSize + pageSize →
          paginateCachedResults cached page pageSize
            = cached.drop ((page - 1) * pageSize))) ∧
    (∀ (a b c : α),
        paginateCachedResults [a, b, c] 1 2 = [a, b] ∧
        paginateCachedResults [a, b, c] 2 2 = [c] ∧
        paginateCachedResults [a, b, c] 3 2 = []) := by
  constructor
  · intro cached page pageSize _ _
    constructor
    · intro hlt
      simp [paginateCachedResults, isStartBeyondBounds, hlt]
    · intro hle hlt
      have h1 : isStartBeyondBounds ((page - 1) * pageSize) cached.length = false := by
        simp [isStartBeyondBounds]
        omega
      have h2 : isEndBeyondBounds ((page - 1) * pageSize + pageSize) cached.length
          = true := by
        simp [isEndBeyondBounds]
        omega
      simp [paginateCachedResults, h1, h2]
  · intro a b c
    exact ⟨rfl, rfl, rfl⟩

/-- Witness for C7: pages 3 and 2 of a concrete 3-record cached set. -/
theorem paginateCachedResults_slice_semantics_witness :
    paginateCachedResults [10, 20, 30] 3 2 = ([] : List Nat) ∧
    paginateCachedResults [10, 20, 30] 2 2 = [30] := by
  constructor
  · exact (paginateCachedResults_slice_semantics.1 [10, 20, 30] 3 2
      (by decide) (by decide)).1 (by decide)
  · have h := (paginateCachedResults_slice_semantics.1 [10, 20, 30] 2 2
      (by decide) (by decide)).2 (by decide) (by decide)
    rw [h]
    rfl

end SearchEngineGo
